import Mathlib

/-!
Verification development for the J.A.R.V.I.S conversational-agent front-end.

The definitions below are a shallow embedding, translated from the
TypeScript sources:
  - `src/services/geminiService.ts` (retry executor, history formatter,
    tool executor, model router, orchestrator),
  - `src/services/mockDataService.ts` (tool handlers),
  - `src/App.tsx` (speech pipeline),
  - `src/unnamed/part_000` (an earlier revision of the service module whose
    tool executor sanitizes the `getEmails` account scope).

Asynchronous gateway calls are modelled by explicit oracles; the values a
JavaScript `await` would produce are supplied by an `Env` record.  JS
exceptions are modelled with `Except`; JS truthiness of strings is modelled
by non-emptiness.
-/

deriving instance DecidableEq for Except

namespace Jarvis

/-! ## JS string helpers -/

/-- JS `String.prototype.includes` on character lists: `needle` occurs as a
contiguous substring of `hay`. -/
def containsSub (needle : List Char) : List Char → Bool
  | [] => needle.isEmpty
  | c :: rest => needle.isPrefixOf (c :: rest) || containsSub needle rest

/-- JS `str.split(' ')`: split on every single space, keeping empty pieces. -/
def splitOnSpace : List Char → List (List Char)
  | [] => [[]]
  | c :: rest =>
    match splitOnSpace rest with
    | [] => [[]]
    | w :: ws => if c == ' ' then [] :: w :: ws else (c :: w) :: ws

/-- Whitespace class used for JS `\s` and `String.prototype.trim`
(restricted to the ASCII whitespace the app ever produces). -/
def jsWS (c : Char) : Bool := c == ' ' || c == '\t' || c == '\n' || c == '\r'

/-- JS `String.prototype.trim` on character lists. -/
def trimChars (cs : List Char) : List Char :=
  ((cs.dropWhile jsWS).reverse.dropWhile jsWS).reverse

/-! ## JS errors and the retry executor (`retryWithBackoff`,
`src/services/geminiService.ts` lines 29-47) -/

/-- The shape of a caught JS error as inspected by the app:
`error.status`, `error.code` and `error.message`. -/
structure JsError where
  status : Option Nat := none
  code : Option Nat := none
  message : String := ""
deriving DecidableEq, Repr

/-- `error.status === 503 || error.code === 503 || error.message?.includes('overloaded')`. -/
def isOverloaded (e : JsError) : Bool :=
  e.status == some 503 || e.code == some 503 || containsSub "overloaded".toList e.message.toList

/-- `error.status === 429 || error.code === 429`. -/
def isRateLimited (e : JsError) : Bool :=
  e.status == some 429 || e.code == some 429

/-- An error is transient when the retry loop keeps retrying it. -/
def isTransient (e : JsError) : Bool := isOverloaded e || isRateLimited e

/-- Observable behaviour of one `retryWithBackoff` run: how often the
operation was invoked, the delays slept between invocations (in order), and
the final outcome. -/
structure RetryTrace (T : Type) where
  calls : Nat
  delays : List Nat
  outcome : Except JsError T
deriving Repr

/-- The retry loop, with the operation modelled as the outcome of its `i`-th
invocation.  `fuel` counts the retries still allowed (`retries - i`);
invocation `i` failing makes `attempt = i + 1`, which exceeds `retries`
exactly when `fuel = 0`. -/
def retryAux {T : Type} (op : Nat → Except JsError T) (initialDelay : Nat) :
    Nat → Nat → RetryTrace T
  | i, 0 =>
    match op i with
    | .ok v => ⟨1, [], .ok v⟩
    | .error e => ⟨1, [], .error e⟩
  | i, fuel + 1 =>
    match op i with
    | .ok v => ⟨1, [], .ok v⟩
    | .error e =>
      if isTransient e then
        let rest := retryAux op initialDelay (i + 1) fuel
        ⟨rest.calls + 1, initialDelay * 2 ^ i :: rest.delays, rest.outcome⟩
      else ⟨1, [], .error e⟩

/-- `retryWithBackoff(operation, retries, initialDelay)`. -/
def retryWithBackoff {T : Type} (op : Nat → Except JsError T)
    (retries : Nat) (initialDelay : Nat) : RetryTrace T :=
  retryAux op initialDelay 0 retries

/-! ## Model router (`selectModel`, `src/services/geminiService.ts`
lines 212-224) -/

inductive MediaType | image | video | audio
deriving DecidableEq, Repr

/-- Keyword set associated with complex reasoning. -/
def complexKeywords : List String :=
  ["analyze", "code", "plan", "complex", "explain in detail"]

/-- `prompt.toLowerCase().includes(kw)`. -/
def promptIncludes (prompt : String) (kw : String) : Bool :=
  containsSub kw.toList (prompt.toList.map Char.toLower)

/-- `prompt.split(' ').length`. -/
def wordCount (prompt : String) : Nat := (splitOnSpace prompt.toList).length

/-- `selectModel(prompt, media?)`: media is `(type, data)`; only the type is
inspected. -/
def selectModel (prompt : String) (media : Option (MediaType × String)) : String :=
  if media.map Prod.fst = some MediaType.video ∨ media.map Prod.fst = some MediaType.audio then
    "gemini-2.5-pro"
  else if complexKeywords.any (fun kw => promptIncludes prompt kw) then
    "gemini-2.5-pro"
  else if wordCount prompt ≤ 3 then
    "gemini-2.5-flash-lite"
  else
    "gemini-2.5-flash"

/-! ## Retry executor lemmas and claim C2 -/

theorem rangeMapShift (d i n : Nat) :
    (List.range (n + 1)).map (fun k => d * 2 ^ (i + k)) =
      d * 2 ^ i :: (List.range n).map (fun k => d * 2 ^ ((i + 1) + k)) := by
  rw [List.range_succ_eq_map, List.map_cons, List.map_map]
  simp only [Nat.add_zero]
  refine congrArg₂ List.cons rfl (List.map_congr_left ?_)
  intro k _
  have h : i + Nat.succ k = (i + 1) + k := by omega
  simp [Function.comp, h]

theorem retryAux_transient {T : Type} (op : Nat → Except JsError T) (e : Nat → JsError)
    (d : Nat) (hop : ∀ n, op n = Except.error (e n)) (ht : ∀ n, isTransient (e n) = true) :
    ∀ fuel i, retryAux op d i fuel =
      ⟨fuel + 1, (List.range fuel).map (fun k => d * 2 ^ (i + k)), Except.error (e (i + fuel))⟩ := by
  intro fuel
  induction fuel with
  | zero => intro i; simp [retryAux, hop i]
  | succ fuel ih =>
    intro i
    simp only [retryAux, hop i, ht i, if_true, ih (i + 1), rangeMapShift]
    rw [show i + (fuel + 1) = (i + 1) + fuel by omega]

theorem retryAux_fatalAt {T : Type} (op : Nat → Except JsError T) (e : Nat → JsError)
    (d : Nat) (hop : ∀ n, op n = Except.error (e n)) :
    ∀ (k fuel i : Nat), k ≤ fuel → (∀ j, j < k → isTransient (e (i + j)) = true) →
      isTransient (e (i + k)) = false →
      retryAux op d i fuel =
        ⟨k + 1, (List.range k).map (fun j => d * 2 ^ (i + j)), Except.error (e (i + k))⟩ := by
  intro k
  induction k with
  | zero =>
    intro fuel i _ _ hfatal
    simp only [Nat.add_zero] at hfatal
    cases fuel with
    | zero => simp [retryAux, hop i]
    | succ fuel => simp [retryAux, hop i, hfatal]
  | succ k ih =>
    intro fuel i hk hpre hfatal
    cases fuel with
    | zero => omega
    | succ fuel =>
      have htr : isTransient (e i) = true := by
        have := hpre 0 (by omega); simpa using this
      have hrest := ih fuel (i + 1) (by omega)
        (fun j hj => by have := hpre (j + 1) (by omega); simpa [show i + (j + 1) = (i + 1) + j by omega] using this)
        (by simpa [show (i + 1) + k = i + (k + 1) by omega] using hfatal)
      simp only [retryAux, hop i, htr, if_true, hrest, rangeMapShift]
      rw [show i + (k + 1) = (i + 1) + k by omega]

/-- Claim C2: with an operation that fails at every invocation, if all the
errors are transient then `retryWithBackoff` invokes it exactly
`retries + 1` times, sleeps `d * 2 ^ (k-1)` before the `k`-th retry, and
raises the last error; if the errors are transient up to the `k`-th
invocation which fails fatally, it performs exactly `k + 1` invocations and
raises that fatal error immediately, with no further retry. -/
theorem claim_C2_retry_bound {T : Type} (op : Nat → Except JsError T) (e : Nat → JsError)
    (r d : Nat) (hop : ∀ n, op n = Except.error (e n)) :
    ((∀ n, isTransient (e n) = true) →
      retryWithBackoff op r d =
        ⟨r + 1, (List.range r).map (fun k => d * 2 ^ k), Except.error (e r)⟩)
    ∧ (∀ k, k ≤ r → (∀ j, j < k → isTransient (e j) = true) → isTransient (e k) = false →
      retryWithBackoff op r d =
        ⟨k + 1, (List.range k).map (fun j => d * 2 ^ j), Except.error (e k)⟩) := by
  constructor
  · intro ht
    have h := retryAux_transient op e d hop ht r 0
    simpa [retryWithBackoff] using h
  · intro k hk hpre hf
    have h := retryAux_fatalAt op e d hop k r 0 hk (by simpa using hpre) (by simpa using hf)
    simpa [retryWithBackoff] using h

theorem claim_C2_retry_bound_witness :
    retryWithBackoff (fun _ => (Except.error ⟨some 503, none, ""⟩ : Except JsError Unit)) 3 1000 =
      ⟨4, [1000, 2000, 4000], Except.error ⟨some 503, none, ""⟩⟩ := by
  have h := (claim_C2_retry_bound (T := Unit) (fun _ => Except.error ⟨some 503, none, ""⟩)
      (fun _ => ⟨some 503, none, ""⟩) 3 1000 (fun _ => rfl)).1 (fun _ => by decide)
  exact h.trans (by simp [List.range_succ])

/-! ## Model router: claim C4 -/

/-- Claim C4: `selectModel` is pure and total, and obeys the four routing
rules in priority order (video/audio media, complex-reasoning keyword,
word count at most 3, default), together with the four concrete instances
from the spec. -/
theorem claim_C4_selectModel :
    (∀ (prompt : String) (media : Option (MediaType × String)),
      ((media.map Prod.fst = some MediaType.video ∨ media.map Prod.fst = some MediaType.audio) →
        selectModel prompt media = "gemini-2.5-pro")
      ∧ (media.map Prod.fst ≠ some MediaType.video → media.map Prod.fst ≠ some MediaType.audio →
          (∃ kw ∈ complexKeywords, promptIncludes prompt kw = true) →
          selectModel prompt media = "gemini-2.5-pro")
      ∧ (media.map Prod.fst ≠ some MediaType.video → media.map Prod.fst ≠ some MediaType.audio →
          (∀ kw ∈ complexKeywords, promptIncludes prompt kw = false) → wordCount prompt ≤ 3 →
          selectModel prompt media = "gemini-2.5-flash-lite")
      ∧ (media.map Prod.fst ≠ some MediaType.video → media.map Prod.fst ≠ some MediaType.audio →
          (∀ kw ∈ complexKeywords, promptIncludes prompt kw = false) → 3 < wordCount prompt →
          selectModel prompt media = "gemini-2.5-flash"))
    ∧ selectModel "ok" (some (MediaType.video, "v")) = "gemini-2.5-pro"
    ∧ selectModel "hi" none = "gemini-2.5-flash-lite"
    ∧ selectModel "please explain in detail the algorithm" none = "gemini-2.5-pro"
    ∧ selectModel "what\x27s the weather today" none = "gemini-2.5-flash" := by
  refine ⟨?_, by decide, by decide, by decide, by decide⟩
  intro prompt media
  refine ⟨?_, ?_, ?_, ?_⟩
  · intro h
    unfold selectModel
    rw [if_pos h]
  · intro hv ha ⟨kw, hmem, hkw⟩
    have hq : complexKeywords.any (fun kw => promptIncludes prompt kw) = true :=
      List.any_eq_true.mpr ⟨kw, hmem, hkw⟩
    unfold selectModel
    rw [if_neg (not_or.mpr ⟨hv, ha⟩)]
    simp [hq]
  · intro hv ha hnone hwc
    have hq : complexKeywords.any (fun kw => promptIncludes prompt kw) = false := by
      simp only [List.any_eq_false]
      intro kw hmem
      simp [hnone kw hmem]
    unfold selectModel
    rw [if_neg (not_or.mpr ⟨hv, ha⟩)]
    simp [hq, hwc]
  · intro hv ha hnone hwc
    have hq : complexKeywords.any (fun kw => promptIncludes prompt kw) = false := by
      simp only [List.any_eq_false]
      intro kw hmem
      simp [hnone kw hmem]
    unfold selectModel
    rw [if_neg (not_or.mpr ⟨hv, ha⟩)]
    simp [hq, Nat.not_le.mpr hwc]

theorem claim_C4_selectModel_witness :
    selectModel "hello there my good friend" none = "gemini-2.5-flash" := by
  have h := (claim_C4_selectModel.1 "hello there my good friend" none).2.2.2
  exact h (by decide) (by decide) (by decide) (by decide)

/-! ## Chat data model and history formatter
(`formatHistoryForApi`, `src/services/geminiService.ts` lines 103-161) -/

/-- Stand-in for a JSON object of tool arguments (string keys and values). -/
abbrev ToolArgs := List (String × String)

inductive Author | user | ai
deriving DecidableEq, Repr

structure ChatAction where
  toolName : String
  toolArgs : ToolArgs
deriving DecidableEq, Repr

structure ChatMessage where
  author : Author
  text : String := ""
  image : Option String := none
  video : Option String := none
  audio : Option String := none
  requiresConsent : Bool := false
  consentGranted : Bool := false
  action : Option ChatAction := none
deriving DecidableEq, Repr

inductive Part where
  | text (s : String)
  | inlineData (mimeType : String) (data : String)
  | functionCall (name : String) (reason : String) (toolToCall : String) (toolArgs : ToolArgs)
deriving DecidableEq, Repr

inductive Role | user | model
deriving DecidableEq, Repr

structure Content where
  role : Role
  parts : List Part
deriving DecidableEq, Repr

/-- All decompositions `cs = pre ++ marker ++ post`, ordered by growing
`pre`; used to model the greedy first group of the data-URL regex. -/
def markerSplits (marker : List Char) : List Char → List (List Char × List Char)
  | [] => []
  | c :: rest =>
    let tailSplits := (markerSplits marker rest).map (fun p => (c :: p.1, p.2))
    if marker.isPrefixOf (c :: rest) then
      ([], (c :: rest).drop marker.length) :: tailSplits
    else tailSplits

/-- `getMediaPart(dataUrl)`: match the data URL against
`^data:(.+);base64,(.+)$` (both groups non-empty, first group greedy) and
build an inline-data part, or return `null` on mismatch. -/
def getMediaPart (dataUrl : String) : Option Part :=
  let cs := dataUrl.toList
  if ("data:".toList).isPrefixOf cs then
    let body := cs.drop 5
    let splits := (markerSplits (";base64,".toList) body).filter
      (fun p => !p.1.isEmpty && !p.2.isEmpty)
    match splits.getLast? with
    | some (mime, dat) => some (Part.inlineData (String.mk mime) (String.mk dat))
    | none => none
  else none

/-- `if (message.image) { ... getMediaPart ... }` for one optional media
field (JS truthiness: absent or empty strings are skipped). -/
def mediaParts (o : Option String) : List Part :=
  match o with
  | some u => if u.isEmpty then [] else (getMediaPart u).toList
  | none => []

/-- The content parts collected for one message: text (if non-empty) then
image, video and audio media parts. -/
def messageParts (m : ChatMessage) : List Part :=
  (if m.text.isEmpty then [] else [Part.text m.text])
    ++ mediaParts m.image ++ mediaParts m.video ++ mediaParts m.audio

/-- How one chat message contributes to the wire history: a user message is
always pushed; an assistant consent request is reconstructed as a
`requestPermission` function call; any other assistant message is pushed
only when it has parts. -/
def encodeMessage (m : ChatMessage) : List Content :=
  let parts := messageParts m
  match m.author with
  | Author.user => [⟨Role.user, parts⟩]
  | Author.ai =>
    match m.requiresConsent, m.action with
    | true, some a =>
      [⟨Role.model, [Part.functionCall "requestPermission" m.text a.toolName a.toolArgs]⟩]
    | _, _ => if parts.isEmpty then [] else [⟨Role.model, parts⟩]

/-- Prune the history to the last `MAX_HISTORY_LENGTH = 30` messages. -/
def windowHistory (h : List ChatMessage) : List ChatMessage :=
  if h.length > 30 then h.drop (h.length - 30) else h

/-- Drop the leading message when it is authored by the assistant (a single
`shift`, performed once). -/
def trimLeadingAi : List ChatMessage → List ChatMessage
  | [] => []
  | m :: rest => if m.author = Author.ai then rest else m :: rest

/-- `formatHistoryForApi(history)`. -/
def formatHistoryForApi (h : List ChatMessage) : List Content :=
  (trimLeadingAi (windowHistory h)).flatMap encodeMessage

/-- Claim C3 (amended): the output is derived from exactly the last 30
messages (the formatter yields the same wire history as on the 30-message
suffix alone), the oldest retained message is dropped when authored by the
assistant, and the wire history starts on a user turn whenever the oldest
message surviving the window-and-trim step is a user message. -/
theorem claim_C3_history_window (h : List ChatMessage) :
    (h.length > 30 → formatHistoryForApi h = formatHistoryForApi (h.drop (h.length - 30)))
    ∧ (∀ m rest, trimLeadingAi (windowHistory h) = m :: rest → m.author = Author.user →
        (formatHistoryForApi h).head? = some ⟨Role.user, messageParts m⟩) := by
  constructor
  · intro hlen
    have hw : windowHistory h = h.drop (h.length - 30) := if_pos hlen
    have hlen2 : (h.drop (h.length - 30)).length = 30 := by
      rw [List.length_drop]; omega
    have hw2 : windowHistory (h.drop (h.length - 30)) = h.drop (h.length - 30) := by
      unfold windowHistory; rw [hlen2]; simp
    unfold formatHistoryForApi
    rw [hw, hw2]
  · intro m rest htrim hu
    unfold formatHistoryForApi
    rw [htrim]
    have he : encodeMessage m = [⟨Role.user, messageParts m⟩] := by
      simp [encodeMessage, hu]
    simp [he]

def exUser (t : String) : ChatMessage := { author := Author.user, text := t }

def exAi (t : String) : ChatMessage := { author := Author.ai, text := t }

/-- A 32-message session whose 30-message window starts with two assistant
messages; only one is dropped. -/
def exHistoryC3 : List ChatMessage :=
  exUser "u1" :: exUser "u2" :: exAi "greeting" :: exAi "x" ::
    List.replicate 28 (exUser "u")

/-- Counterexample to claim C3 as stated: on this >30-message session the
formatted wire history begins with a model turn, not a user turn. -/
theorem claim_C3_counterexample :
    exHistoryC3.length > 30
    ∧ (formatHistoryForApi exHistoryC3).head?.map Content.role = some Role.model
    ∧ (formatHistoryForApi exHistoryC3).head?.map Content.role ≠ some Role.user := by
  decide

def exHistory31 : List ChatMessage := List.replicate 31 (exUser "u")

theorem claim_C3_history_window_witness :
    formatHistoryForApi exHistory31 = formatHistoryForApi (exHistory31.drop 1)
    ∧ (formatHistoryForApi exHistory31).head? = some ⟨Role.user, messageParts (exUser "u")⟩ := by
  constructor
  · have h := (claim_C3_history_window exHistory31).1 (by decide)
    have e : exHistory31.length - 30 = 1 := by decide
    rw [e] at h
    exact h
  · exact (claim_C3_history_window exHistory31).2 (exUser "u")
      (List.replicate 29 (exUser "u")) (by decide) rfl

/-! ## Tool executor and the `getEmails` scope
(`executeTool` in `src/services/geminiService.ts` lines 163-209 and in the
earlier revision `src/unnamed/part_000` lines 85-127; `getEmails` in
`src/services/mockDataService.ts`) -/

structure ServiceAccount where
  id : String
  connected : Bool
deriving DecidableEq, Repr

structure ServiceIntegration where
  id : String
  connected : Bool
  accounts : Option (List ServiceAccount) := none
deriving DecidableEq, Repr

/-- `connections.find(c => c.id === 'email')?.accounts?.filter(a =>
a.connected).map(a => a.id) || []`. -/
def connectedEmailAccounts (connections : List ServiceIntegration) : List String :=
  match connections.find? (fun c => c.id == "email") with
  | some c =>
    match c.accounts with
    | some accs => (accs.filter (fun a => a.connected)).map (fun a => a.id)
    | none => []
  | none => []

/-- The `accountIds` with which the current `executeTool`
(`src/services/geminiService.ts`) invokes the `getEmails` handler: the
request is forwarded verbatim, and the `connections` argument is never
consulted. -/
def dispatchedGetEmailsAccountIds (requested : Option (List String))
    (_connections : List ServiceIntegration) : Option (List String) :=
  requested

/-- The `accountIds` with which the earlier executor
(`src/unnamed/part_000`) invokes the `getEmails` handler: an absent or
empty request is expanded to the connected accounts, a non-empty request is
filtered down to them. -/
def dispatchedGetEmailsAccountIdsV0 (requested : Option (List String))
    (connections : List ServiceIntegration) : List String :=
  let connectedAccounts := connectedEmailAccounts connections
  match requested with
  | none => connectedAccounts
  | some ids =>
    if ids.isEmpty then connectedAccounts
    else ids.filter (fun id => connectedAccounts.contains id)

/-- The mailbox keys of the mock `getEmails` handler. -/
def mockEmailAccountIds : List String := ["personal@example.com", "work@example.com"]

/-- Which mailboxes the mock `getEmails` handler actually reads for a given
`accountIds` argument: every requested id that is a key of the mailbox
map (an absent or empty argument reads nothing). -/
def getEmailsAccountsRead (accountIds : Option (List String)) : List String :=
  match accountIds with
  | none => []
  | some ids =>
    if ids.isEmpty then []
    else ids.filter (fun id => mockEmailAccountIds.contains id)

def exConnectionsC1 : List ServiceIntegration :=
  [{ id := "email", connected := true,
     accounts := some [⟨"personal@example.com", true⟩, ⟨"work@example.com", false⟩] }]

/-- Claim C1, evaluated at the failing input: with only
`personal@example.com` connected and the model requesting
`work@example.com`, the current executor hands `getEmails` the request
unchanged, `getEmails` reads the `work@example.com` mailbox even though it
is outside the connected scope, while the earlier sanitizing executor
would have reduced the request to the empty intersection. -/
theorem claim_C1_scope_leak :
    connectedEmailAccounts exConnectionsC1 = ["personal@example.com"]
    ∧ dispatchedGetEmailsAccountIds (some ["work@example.com"]) exConnectionsC1 =
        some ["work@example.com"]
    ∧ "work@example.com" ∉ connectedEmailAccounts exConnectionsC1
    ∧ getEmailsAccountsRead (some ["work@example.com"]) = ["work@example.com"]
    ∧ dispatchedGetEmailsAccountIdsV0 (some ["work@example.com"]) exConnectionsC1 = [] := by
  decide

/-- The earlier executor does satisfy the claimed sanitization contract:
its dispatched scope is always inside the connected scope, an empty or
absent request expands to the connected scope, and a non-empty request is
reduced to its intersection with the connected scope. -/
theorem sanitizeV0_sound (requested : Option (List String))
    (connections : List ServiceIntegration) :
    (∀ id ∈ dispatchedGetEmailsAccountIdsV0 requested connections,
      id ∈ connectedEmailAccounts connections)
    ∧ ((requested = none ∨ requested = some []) →
        dispatchedGetEmailsAccountIdsV0 requested connections =
          connectedEmailAccounts connections)
    ∧ (∀ ids, requested = some ids → ids ≠ [] →
        dispatchedGetEmailsAccountIdsV0 requested connections =
          ids.filter (fun id => (connectedEmailAccounts connections).contains id)) := by
  refine ⟨?_, ?_, ?_⟩
  · intro id hid
    cases requested with
    | none => simpa [dispatchedGetEmailsAccountIdsV0] using hid
    | some ids =>
      by_cases hids : ids.isEmpty
      · simpa [dispatchedGetEmailsAccountIdsV0, hids] using hid
      · simp only [dispatchedGetEmailsAccountIdsV0, hids, if_false, Bool.false_eq_true] at hid
        have := (List.mem_filter.mp hid).2
        simpa using this
  · rintro (rfl | rfl) <;> simp [dispatchedGetEmailsAccountIdsV0]
  · rintro ids rfl hne
    simp [dispatchedGetEmailsAccountIdsV0, List.isEmpty_iff, hne]

/-! ## Speech pipeline: chunk splitting
(`splitTextIntoChunks`, `src/App.tsx` lines 94-100) -/

/-- The sentence delimiters of the splitting regex. -/
def isDelim (c : Char) : Bool := c == '.' || c == '!' || c == '?'

/-- Global matching of `[^.!?]+[.!?]+(\s+|$)|[^.!?]+$` over the cleaned
text: at each position try the first alternative (non-delimiters, then
delimiters, then whitespace-or-end), else the second (non-delimiters up to
the end of input), else advance one character.  `fuel` bounds the scan; a
fuel of the input length suffices since every step consumes at least one
character. -/
def jsMatchAux : Nat → List Char → List (List Char)
  | 0, _ => []
  | _, [] => []
  | fuel + 1, c :: rest =>
    let cs := c :: rest
    let nd := cs.takeWhile (fun x => !isDelim x)
    if nd.isEmpty then jsMatchAux fuel rest
    else
      let afterNd := cs.drop nd.length
      let dl := afterNd.takeWhile isDelim
      if dl.isEmpty then
        if afterNd.isEmpty then [nd] else jsMatchAux fuel rest
      else
        let afterDl := afterNd.drop dl.length
        let sp := afterDl.takeWhile jsWS
        if sp.isEmpty && !afterDl.isEmpty then jsMatchAux fuel rest
        else (nd ++ dl ++ sp) :: jsMatchAux fuel (afterDl.drop sp.length)

/-- `splitTextIntoChunks(text)`: strip asterisks, run the sentence-matching
regex (a null match result falls back to the whole cleaned text), trim each
match and drop empties. -/
def splitTextIntoChunks (text : String) : List String :=
  let clean := text.toList.filter (fun c => !(c == '*'))
  match jsMatchAux clean.length clean with
  | [] => [String.mk clean]
  | ms => (ms.map (fun m => String.mk (trimChars m))).filter (fun s => !s.isEmpty)

/-- The splitter as the claim describes it (used only to compare with the
code's splitter): cut the text at every maximal delimiter run, retaining
the delimiters, with any trailing unterminated fragment as its own chunk;
chunks trimmed, empties dropped. -/
def specSplitAux : Nat → List Char → List (List Char)
  | 0, _ => []
  | _, [] => []
  | fuel + 1, c :: rest =>
    let cs := c :: rest
    let nd := cs.takeWhile (fun x => !isDelim x)
    let afterNd := cs.drop nd.length
    let dl := afterNd.takeWhile isDelim
    if dl.isEmpty then [nd]
    else (nd ++ dl) :: specSplitAux fuel (afterNd.drop (dl.length))

/-- The sentence split the claim describes, as a whole-string function. -/
def specSentenceSplit (text : String) : List String :=
  ((specSplitAux text.length text.toList).map (fun m => String.mk (trimChars m))).filter
    (fun s => !s.isEmpty)

/-- Counterexample to claim C6 as stated: on `"A.B"` (a delimiter not
followed by whitespace) the code's splitter drops the sentence `"A."`
entirely and returns only `["B"]`, while splitting on the delimiters with
the delimiter retained would give `["A.", "B"]`. -/
theorem claim_C6_counterexample :
    splitTextIntoChunks "A.B" = ["B"]
    ∧ specSentenceSplit "A.B" = ["A.", "B"]
    ∧ splitTextIntoChunks "A.B" ≠ specSentenceSplit "A.B" := by
  decide

/-! ## Speech pipeline: sequential playback with generation-counter
cancellation (`playAiSpeech` and `stopAudioInternal`, `src/App.tsx`
lines 190-199 and 270-319) -/

inductive SpeechEvent
  | synthesize (i : Nat)
  | play (i : Nat)
deriving DecidableEq, Repr

/-- `playAiSpeech` increments `speechGenerationRef.current`. -/
def speakGeneration (g : Nat) : Nat := g + 1

/-- `stopAudioInternal` increments `speechGenerationRef.current`. -/
def stopGeneration (g : Nat) : Nat := g + 1

/-- The chunk loop of one speech job.  `genId` is the generation captured at
job start; `ctr k` is the live counter value observed at the job's `k`-th
check (each iteration checks twice: before synthesizing and, after the
synthesis await, before playing); `synthOk i` tells whether synthesis of
chunk `i` returned audio (on failure the loop skips to the next chunk
immediately); `n` is the number of chunks.  The trace lists the events the
job performs, in order. -/
def playLoopModel (genId : Nat) (ctr : Nat → Nat) (synthOk : Nat → Bool) (n : Nat) :
    Nat → Nat → List SpeechEvent
  | 0, _ => []
  | fuel + 1, i =>
    if n ≤ i then []
    else if ctr (2 * i) ≠ genId then []
    else
      SpeechEvent.synthesize i ::
        (if ctr (2 * i + 1) ≠ genId then []
         else if synthOk i then
           SpeechEvent.play i :: playLoopModel genId ctr synthOk n fuel (i + 1)
         else playLoopModel genId ctr synthOk n fuel (i + 1))

theorem playLoopModel_checks (genId : Nat) (ctr : Nat → Nat) (synthOk : Nat → Bool)
    (n : Nat) : ∀ fuel i0 ev, ev ∈ playLoopModel genId ctr synthOk n fuel i0 →
      (∀ i, ev = SpeechEvent.synthesize i → ctr (2 * i) = genId)
      ∧ (∀ i, ev = SpeechEvent.play i → ctr (2 * i + 1) = genId) := by
  intro fuel
  induction fuel with
  | zero => intro i0 ev h; simp [playLoopModel] at h
  | succ fuel ih =>
    intro i0 ev h
    by_cases h1 : n ≤ i0
    · simp [playLoopModel, h1] at h
    · by_cases h2 : ctr (2 * i0) = genId
      · simp only [playLoopModel, if_neg h1, h2, ne_eq, not_true_eq_false, if_false,
          ite_not] at h
        rcases List.mem_cons.mp h with rfl | htail
        · exact ⟨(fun i hi => by cases hi; exact h2), (fun i hi => by cases hi)⟩
        · by_cases h3 : ctr (2 * i0 + 1) = genId
          · rw [if_pos h3] at htail
            by_cases h4 : synthOk i0
            · rw [if_pos h4] at htail
              rcases List.mem_cons.mp htail with rfl | htail2
              · exact ⟨(fun i hi => by cases hi), (fun i hi => by cases hi; exact h3)⟩
              · exact ih (i0 + 1) ev htail2
            · rw [if_neg (by simpa using h4)] at htail
              exact ih (i0 + 1) ev htail
          · rw [if_neg h3] at htail
            simp at htail
      · simp [playLoopModel, h1, h2] at h

/-- Claim C7: `speak` and `stop` each increment the monotonic generation
counter; the chunk loop checks the counter before synthesizing and again
before playing, aborting silently on mismatch with the generation captured
at job start.  Hence, with the counter only ever incremented, once a second
`speak` has raised the live counter above the job's generation by its `K`-th
check, the job synthesizes no chunk at or after check `K` and starts no
playback at or after check `K`; and every playback it does start happens at
a check where the live counter still equals the job's generation. -/
theorem claim_C7_cancellation :
    (∀ g, speakGeneration g = g + 1)
    ∧ (∀ g, stopGeneration g = g + 1)
    ∧ ∀ (genId : Nat) (ctr : Nat → Nat) (synthOk : Nat → Bool) (n fuel K : Nat),
        (∀ a b, a ≤ b → ctr a ≤ ctr b) → genId < ctr K →
        (∀ i, SpeechEvent.synthesize i ∈ playLoopModel genId ctr synthOk n fuel 0 →
          2 * i < K)
        ∧ (∀ i, SpeechEvent.play i ∈ playLoopModel genId ctr synthOk n fuel 0 →
          2 * i + 1 < K ∧ ctr (2 * i + 1) = genId) := by
  refine ⟨fun g => rfl, fun g => rfl, ?_⟩
  intro genId ctr synthOk n fuel K hmono hK
  constructor
  · intro i h
    have hc := (playLoopModel_checks genId ctr synthOk n fuel 0 _ h).1 i rfl
    by_contra hge
    have : ctr K ≤ ctr (2 * i) := hmono K (2 * i) (by omega)
    omega
  · intro i h
    have hc := (playLoopModel_checks genId ctr synthOk n fuel 0 _ h).2 i rfl
    refine ⟨?_, hc⟩
    by_contra hge
    have : ctr K ≤ ctr (2 * i + 1) := hmono K (2 * i + 1) (by omega)
    omega

/-- A live counter that gets bumped (by a second `speak`) just before the
job's third check. -/
def ctrW : Nat → Nat := fun k => if k < 2 then 1 else 2

theorem claim_C7_cancellation_witness :
    SpeechEvent.synthesize 1 ∉ playLoopModel 1 ctrW (fun _ => true) 3 3 0 := by
  intro hmem
  have hmono : ∀ a b, a ≤ b → ctrW a ≤ ctrW b := by
    intro a b hab
    unfold ctrW
    split_ifs <;> omega
  have h := (claim_C7_cancellation.2.2 1 ctrW (fun _ => true) 3 3 2 hmono (by decide)).1
    1 hmem
  omega

theorem playLoopModel_noCancel (g : Nat) (synthOk : Nat → Bool) (n : Nat) :
    ∀ fuel i, n - i ≤ fuel →
      playLoopModel g (fun _ => g) synthOk n fuel i =
        (List.range' i (n - i)).flatMap
          (fun j => SpeechEvent.synthesize j :: if synthOk j then [SpeechEvent.play j] else []) := by
  intro fuel
  induction fuel with
  | zero =>
    intro i hle
    have h0 : n - i = 0 := by omega
    simp [playLoopModel, h0]
  | succ fuel ih =>
    intro i hle
    by_cases hni : n ≤ i
    · have h0 : n - i = 0 := by omega
      simp [playLoopModel, hni, h0]
    · have hk : n - i = (n - (i + 1)) + 1 := by omega
      rw [hk, List.range'_succ]
      by_cases hs : synthOk i
      · simp [playLoopModel, hni, hs, ih (i + 1) (by omega)]
      · simp [playLoopModel, hni, hs, ih (i + 1) (by omega)]

/-- Claim C6 (amended): `speak("A. B! C?")` produces exactly the three
chunks `"A."`, `"B!"`, `"C?"` in order (in general the splitter cuts at
delimiter runs only when they are followed by whitespace or end of input,
and may drop text before a delimiter that is not); and an uncancelled chunk
loop synthesizes and plays the chunks strictly in order — chunk `i+1`'s
synthesis starts only after chunk `i`'s playback has finished, or
immediately when chunk `i`'s synthesis failed. -/
theorem claim_C6_chunk_order :
    splitTextIntoChunks "A. B! C?" = ["A.", "B!", "C?"]
    ∧ ∀ (g : Nat) (synthOk : Nat → Bool) (n : Nat),
        playLoopModel g (fun _ => g) synthOk n n 0 =
          (List.range n).flatMap
            (fun j => SpeechEvent.synthesize j :: if synthOk j then [SpeechEvent.play j] else []) := by
  constructor
  · decide
  · intro g synthOk n
    have h := playLoopModel_noCancel g synthOk n n 0 (by omega)
    simpa [List.range_eq_range'] using h

/-! ## Orchestrator (`getAiResponse` and `getAiResponseAfterConsent`,
`src/services/geminiService.ts` lines 229-481)

The model gateway is abstracted by oracles in an `Env` record: `chat n` is
the (post-retry) outcome of the `n`-th `chat.sendMessage` of the
invocation, and the one-shot generation/grounding calls — each reachable at
most once per invocation, since their branches return — are single oracle
values.  The outbound user parts and the media payloads handed to the
generation calls are absorbed by these oracles.  The run yields the
returned `AiResponse` (or the JS exception that escaped, or fuel
exhaustion of the unbounded tool loop) together with the ordered list of
observable effects. -/

/-- The first (and only dispatched) function call of a model response,
with the argument fields the orchestrator reads.  `argsObj` stands for the
raw `args` object forwarded to `executeTool` for registered tools. -/
structure FunctionCall where
  name : String
  reason : String := ""
  toolToCall : String := ""
  toolArgs : Option ToolArgs := none
  fact : String := ""
  prompt : String := ""
  aspectRatio : Option String := none
  image : Option String := none
  argsObj : ToolArgs := []
deriving DecidableEq, Repr

structure ModelResponse where
  text : String
  functionCalls : List FunctionCall := []
deriving DecidableEq, Repr

structure GroundingWeb where
  uri : Option String := none
  title : Option String := none
deriving DecidableEq, Repr

structure GroundingChunk where
  web : Option GroundingWeb := none
  maps : Option GroundingWeb := none
deriving DecidableEq, Repr

structure GroundingSource where
  uri : String
  title : String
deriving DecidableEq, Repr

structure GroundingResult where
  text : String
  groundingChunks : List GroundingChunk := []
deriving DecidableEq, Repr

structure GeneratedVideo where
  state : String
  operationName : String
deriving DecidableEq, Repr

/-- The structured response of one orchestrator invocation. -/
structure AiResponse where
  text : String
  requiresConsent : Bool := false
  action : Option (String × ToolArgs) := none
  requiresBillingProject : Bool := false
  generatedImage : Option String := none
  generatedVideo : Option GeneratedVideo := none
  groundingSources : Option (List GroundingSource) := none
  learnedFacts : List String := []
deriving DecidableEq, Repr

/-- JS `a || dflt` for an optional string (`undefined` and `''` fall
through). -/
def truthyOr (a : Option String) (dflt : String) : String :=
  match a with
  | some s => if s.isEmpty then dflt else s
  | none => dflt

/-- `{ uri: chunk.web?.uri || chunk.maps?.uri || '', title: chunk.web?.title
|| chunk.maps?.title || 'Source' }`. -/
def mkGroundingSource (c : GroundingChunk) : GroundingSource :=
  { uri := truthyOr (c.web.bind GroundingWeb.uri) (truthyOr (c.maps.bind GroundingWeb.uri) "")
    title := truthyOr (c.web.bind GroundingWeb.title)
      (truthyOr (c.maps.bind GroundingWeb.title) "Source") }

/-- `groundingChunks.map(...).filter(s => s.uri)`. -/
def groundingSourcesOf (g : GroundingResult) : List GroundingSource :=
  (g.groundingChunks.map mkGroundingSource).filter (fun s => !s.uri.isEmpty)

/-- The observable effects of one orchestrator run, in order. -/
inductive Effect
  | send
  | toolExec (name : String) (args : ToolArgs)
  | imageGen
  | editGen
  | videoGen
  | groundingCall
deriving DecidableEq, Repr

/-- Outcome of one orchestrator run: a returned response, an escaped JS
exception, or exhaustion of the fuel bounding the (source-unbounded) tool
loop. -/
inductive RunOut
  | ok (r : AiResponse)
  | thrown (e : JsError)
  | fuelOut
deriving DecidableEq, Repr

/-- The uniform tool-result envelope `executeTool` produces. -/
structure ToolEnvelope where
  name : String
  response : Except String String
deriving DecidableEq, Repr

/-- Oracles standing for the awaited external calls. -/
structure Env where
  chat : Nat → Except JsError ModelResponse
  imageGen : Except JsError String := Except.error {}
  editGen : Except JsError (Option (String × String)) := Except.error {}
  videoGen : Except JsError String := Except.error {}
  aistudioHasKey : Option Bool := none
  grounding : Except JsError GroundingResult := Except.error {}
  toolResult : String → ToolArgs → Except String String := fun _ _ => Except.error ""
  location : Except String String := Except.error ""

/-- The keys of the `availableTools` registry. -/
def availableToolNames : List String :=
  ["getEmails", "getCalendarEvents", "createCalendarEvent", "getWellbeingData",
   "getSmartHomeStatus", "getUserLocation", "useGoogleSearch", "useGoogleMaps",
   "rememberFact"]

/-- `executeTool(toolName, toolArgs, connections)` of the current service
module: registry lookup by exact name, handler failures converted to a
generic error envelope, `requestLocation` special-cased, unknown names
yielding a "not found" error envelope. -/
def executeToolModel (env : Env) (toolName : String) (args : ToolArgs) : ToolEnvelope :=
  if availableToolNames.contains toolName then
    match env.toolResult toolName args with
    | .ok r => ⟨toolName, .ok r⟩
    | .error _ => ⟨toolName, .error "Failed to execute function."⟩
  else if toolName = "requestLocation" then
    match env.location with
    | .ok loc => ⟨toolName, .ok loc⟩
    | .error msg => ⟨toolName, .error msg⟩
  else ⟨toolName, .error ("Function " ++ toolName ++ " not found.")⟩

def imageBillingText : String :=
  "To generate images, you need to select a billing project. Please use the button above to configure your project."

def videoBillingText : String :=
  "To generate a video, you first need to select a project. Please click the \x27Select Project\x27 button to continue."

def editApologyText : String :=
  "I\x27m sorry, I couldn\x27t find an image to edit. Please upload one first."

/-- `error.message?.includes('billed users') || error.status === 400 ||
error.code === 400`. -/
def isBillingError (e : JsError) : Bool :=
  containsSub "billed users".toList e.message.toList
    || e.status == some 400 || e.code == some 400

/-- Send an error envelope back into the exchange and return the model's
plain-text reply (the pattern shared by the generation branches after a
caught failure). -/
def errorEnvelopeReply (env : Env) (sendIdx : Nat) (learned : List String)
    (effs : List Effect) : RunOut × List Effect :=
  match env.chat sendIdx with
  | .ok r2 => (.ok { text := r2.text, learnedFacts := learned }, effs ++ [.send])
  | .error e2 => (.thrown e2, effs ++ [.send])

/-- The `generateImage` catch block: billing-class failures become the
billing-required response, anything else becomes an error envelope round
trip. -/
def imageCatch (env : Env) (e : JsError) (sendIdx : Nat) (learned : List String)
    (effs : List Effect) : RunOut × List Effect :=
  if isBillingError e then
    (.ok { text := imageBillingText, requiresBillingProject := true,
           learnedFacts := learned }, effs)
  else errorEnvelopeReply env sendIdx learned effs

/-- The `generateImage` branch: generate, send a success envelope and
return the materialized image, with failures (of either awaited call inside
the `try`) routed through the catch block. -/
def imageBranch (env : Env) (sendIdx : Nat) (learned : List String) : RunOut × List Effect :=
  match env.imageGen with
  | .ok bytes =>
    match env.chat sendIdx with
    | .ok r2 =>
      (.ok { text := r2.text, generatedImage := some ("data:image/png;base64," ++ bytes),
             learnedFacts := learned }, [.imageGen, .send])
    | .error e => imageCatch env e (sendIdx + 1) learned [.imageGen, .send]
  | .error e => imageCatch env e sendIdx learned [.imageGen]

/-- `m.author === 'user' && m.image` (JS truthiness). -/
def hasUserImage (m : ChatMessage) : Bool :=
  if m.author = Author.user then
    match m.image with
    | some s => !s.isEmpty
    | none => false
  else false

/-- The `editImage` branch: find the last user message carrying an image
(apologize when there is none), parse it, run the edit generation, send the
success envelope and return the edited image; any failure inside the `try`
becomes an error envelope round trip. -/
def editBranch (env : Env) (history : List ChatMessage) (sendIdx : Nat)
    (learned : List String) : RunOut × List Effect :=
  match history.reverse.find? hasUserImage with
  | none => (.ok { text := editApologyText, learnedFacts := learned }, [])
  | some msg =>
    match getMediaPart (msg.image.getD "") with
    | none => errorEnvelopeReply env sendIdx learned []
    | some _ =>
      match env.editGen with
      | .error _ => errorEnvelopeReply env sendIdx learned [.editGen]
      | .ok none => errorEnvelopeReply env sendIdx learned [.editGen]
      | .ok (some (mime, dat)) =>
        match env.chat sendIdx with
        | .ok r2 =>
          (.ok { text := r2.text,
                 generatedImage := some ("data:" ++ mime ++ ";base64," ++ dat),
                 learnedFacts := learned }, [.editGen, .send])
        | .error _ => errorEnvelopeReply env (sendIdx + 1) learned [.editGen, .send]

/-- The `generateVideo` branch: the aistudio key check gates a
billing-required response; otherwise start the async generation, send the
envelope and return the `generating` handle; failures become an error
envelope round trip.  (The image payload handed to the generation call is
absorbed by the oracle.) -/
def videoBranch (env : Env) (sendIdx : Nat) (learned : List String) : RunOut × List Effect :=
  if env.aistudioHasKey = some false then
    (.ok { text := videoBillingText, requiresBillingProject := true,
           learnedFacts := learned }, [])
  else
    match env.videoGen with
    | .ok opName =>
      match env.chat sendIdx with
      | .ok r2 =>
        (.ok { text := r2.text, generatedVideo := some ⟨"generating", opName⟩,
               learnedFacts := learned }, [.videoGen, .send])
      | .error _ => errorEnvelopeReply env (sendIdx + 1) learned [.videoGen, .send]
    | .error _ => errorEnvelopeReply env sendIdx learned [.videoGen]

/-- The grounding branch (`useGoogleSearch` / `useGoogleMaps`): one
separate grounding-enabled single-turn request, then a `Final` response
with the URI-filtered sources. -/
def groundingBranch (env : Env) (learned : List String) : RunOut × List Effect :=
  match env.grounding with
  | .error e => (.thrown e, [.groundingCall])
  | .ok g =>
    (.ok { text := g.text, groundingSources := some (groundingSourcesOf g),
           learnedFacts := learned }, [.groundingCall])

/-- The orchestrator's tool-call loop (`while (response.functionCalls ...`),
dispatching on the first pending function call.  `sendIdx` counts the
`chat.sendMessage` calls already made. -/
def loopModel (env : Env) (history : List ChatMessage) :
    Nat → Nat → ModelResponse → List String → RunOut × List Effect
  | fuel, sendIdx, resp, learned =>
    match resp.functionCalls with
    | [] => (.ok { text := resp.text, learnedFacts := learned }, [])
    | fc :: _ =>
      match fuel with
      | 0 => (.fuelOut, [])
      | fuel + 1 =>
        if fc.name = "rememberFact" then
          match env.chat sendIdx with
          | .error e => (.thrown e, [.send])
          | .ok r2 =>
            let rest := loopModel env history fuel (sendIdx + 1) r2 (learned ++ [fc.fact])
            (rest.1, .send :: rest.2)
        else if fc.name = "requestPermission" then
          (.ok { text := fc.reason, requiresConsent := true,
                 action := some (fc.toolToCall, fc.toolArgs.getD []),
                 learnedFacts := learned }, [])
        else if fc.name = "generateImage" then imageBranch env sendIdx learned
        else if fc.name = "editImage" then editBranch env history sendIdx learned
        else if fc.name = "generateVideo" then videoBranch env sendIdx learned
        else if fc.name = "useGoogleSearch" ∨ fc.name = "useGoogleMaps" then
          groundingBranch env learned
        else
          match env.chat sendIdx with
          | .error e => (.thrown e, [.toolExec fc.name fc.argsObj, .send])
          | .ok r2 =>
            let rest := loopModel env history fuel (sendIdx + 1) r2 learned
            (rest.1, .toolExec fc.name fc.argsObj :: .send :: rest.2)

/-- `getAiResponse(prompt, media, options, history, connections,
userMemory)`: the initial send, then the tool loop.  Prompt and media only
shape the outbound user parts, which the chat oracle absorbs. -/
def getAiResponseModel (env : Env) (_prompt : String) (_media : Option (MediaType × String))
    (history : List ChatMessage) (fuel : Nat) : RunOut × List Effect :=
  match env.chat 0 with
  | .error e => (.thrown e, [.send])
  | .ok resp =>
    let rest := loopModel env history fuel 1 resp []
    (rest.1, .send :: rest.2)

/-- `getAiResponseAfterConsent(action, history, connections)`: execute the
gated tool once, feed its envelope into a fresh exchange, return the
reply's text. -/
def getAiResponseAfterConsentModel (env : Env) (action : String × ToolArgs) :
    RunOut × List Effect :=
  let _envlp := executeToolModel env action.1 action.2
  match env.chat 0 with
  | .error e => (.thrown e, [.toolExec action.1 action.2, .send])
  | .ok r => (.ok { text := r.text }, [.toolExec action.1 action.2, .send])

/-! ## Orchestrator theorems -/

/-- Number of non-plain-text terminal shapes carried by a response:
consent-request, billing-required, media-result (generated image or
video).  A plain-text response carries none of them. -/
def shapeCount (r : AiResponse) : Nat :=
  (if r.requiresConsent then 1 else 0) + (if r.requiresBillingProject then 1 else 0) +
    (if r.generatedImage.isSome || r.generatedVideo.isSome then 1 else 0)

/-- Every returned response carries at most one terminal shape, and a
consent response always carries an action. -/
def okShapeOk : RunOut × List Effect → Prop
  | (RunOut.ok r, _) =>
    shapeCount r ≤ 1 ∧ (r.requiresConsent = true → r.action.isSome = true)
  | _ => True

theorem okShapeOk_fst (p : RunOut × List Effect) (l : List Effect) :
    okShapeOk (p.1, l) ↔ okShapeOk p := by
  obtain ⟨o, e⟩ := p
  cases o <;> simp [okShapeOk]

theorem errorEnvelopeReply_ok (env : Env) (sendIdx : Nat) (learned : List String)
    (effs : List Effect) : okShapeOk (errorEnvelopeReply env sendIdx learned effs) := by
  unfold errorEnvelopeReply
  split <;> simp [okShapeOk, shapeCount]

theorem imageCatch_ok (env : Env) (e : JsError) (sendIdx : Nat) (learned : List String)
    (effs : List Effect) : okShapeOk (imageCatch env e sendIdx learned effs) := by
  unfold imageCatch
  split
  · simp [okShapeOk, shapeCount]
  · exact errorEnvelopeReply_ok ..

theorem imageBranch_ok (env : Env) (sendIdx : Nat) (learned : List String) :
    okShapeOk (imageBranch env sendIdx learned) := by
  unfold imageBranch
  split
  · split
    · simp [okShapeOk, shapeCount]
    · exact imageCatch_ok ..
  · exact imageCatch_ok ..

theorem editBranch_ok (env : Env) (history : List ChatMessage) (sendIdx : Nat)
    (learned : List String) : okShapeOk (editBranch env history sendIdx learned) := by
  unfold editBranch
  split
  · simp [okShapeOk, shapeCount]
  · split
    · exact errorEnvelopeReply_ok ..
    · split
      · exact errorEnvelopeReply_ok ..
      · exact errorEnvelopeReply_ok ..
      · split
        · simp [okShapeOk, shapeCount]
        · exact errorEnvelopeReply_ok ..

theorem videoBranch_ok (env : Env) (sendIdx : Nat) (learned : List String) :
    okShapeOk (videoBranch env sendIdx learned) := by
  unfold videoBranch
  split
  · simp [okShapeOk, shapeCount]
  · split
    · split
      · simp [okShapeOk, shapeCount]
      · exact errorEnvelopeReply_ok ..
    · exact errorEnvelopeReply_ok ..

theorem groundingBranch_ok (env : Env) (learned : List String) :
    okShapeOk (groundingBranch env learned) := by
  unfold groundingBranch
  split <;> simp [okShapeOk, shapeCount]

theorem loopModel_ok (env : Env) (history : List ChatMessage) :
    ∀ fuel sendIdx resp learned, okShapeOk (loopModel env history fuel sendIdx resp learned) := by
  intro fuel
  induction fuel with
  | zero =>
    intro sendIdx resp learned
    unfold loopModel
    split <;> simp [okShapeOk, shapeCount]
  | succ fuel ih =>
    intro sendIdx resp learned
    unfold loopModel
    split
    · simp [okShapeOk, shapeCount]
    · dsimp only
      split
      · -- rememberFact: feed the envelope back and continue the loop
        split
        · simp [okShapeOk]
        · rw [okShapeOk_fst]
          exact ih ..
      · split
        · simp [okShapeOk, shapeCount]
        · split
          · exact imageBranch_ok ..
          · split
            · exact editBranch_ok ..
            · split
              · exact videoBranch_ok ..
              · split
                · exact groundingBranch_ok ..
                · split
                  · simp [okShapeOk]
                  · rw [okShapeOk_fst]
                    exact ih ..

/-- Claim C9: every `AiResponse` returned by one orchestrator invocation
has exactly one terminal shape — consent-request, billing-required,
media-result, or plain text — never more than one simultaneously, and a
consent response always carries an action. -/
theorem claim_C9_single_terminal_shape (env : Env) (prompt : String)
    (media : Option (MediaType × String)) (history : List ChatMessage) (fuel : Nat)
    (r : AiResponse) (effs : List Effect)
    (h : getAiResponseModel env prompt media history fuel = (RunOut.ok r, effs)) :
    shapeCount r ≤ 1 ∧ (r.requiresConsent = true → r.action.isSome = true) := by
  have hOk : okShapeOk (getAiResponseModel env prompt media history fuel) := by
    unfold getAiResponseModel
    cases env.chat 0 with
    | error e => simp [okShapeOk]
    | ok resp =>
      simp only []
      rw [okShapeOk_fst]
      exact loopModel_ok ..
  rw [h] at hOk
  exact hOk

/-- An environment whose model replies with plain text and no tool call. -/
def envPlain : Env := { chat := fun _ => .ok { text := "hi" } }

theorem claim_C9_single_terminal_shape_witness :
    shapeCount { text := "hi" } ≤ 1 ∧
      (AiResponse.requiresConsent { text := "hi" } = true →
        (AiResponse.action { text := "hi" }).isSome = true) :=
  claim_C9_single_terminal_shape envPlain "p" none [] 0 { text := "hi" } [Effect.send] rfl

/-- Claim C5: a turn in which the model issues the consent-gate
(`requestPermission`) tool call makes the orchestrator return
`requiresConsent = true` with the requested tool name and arguments as the
pending action and no effect performed (in particular the underlying tool
is not executed); and `respondAfterConsent` on that exact action executes
the requested tool exactly once and — when the follow-up exchange
succeeds — returns a plain `Final` text response without re-entering the
tool loop. -/
theorem claim_C5_consent_round_trip (env : Env) (history : List ChatMessage)
    (fuel sendIdx : Nat) (resp : ModelResponse) (learned : List String)
    (fc : FunctionCall) (rest : List FunctionCall)
    (hfc : resp.functionCalls = fc :: rest) (hname : fc.name = "requestPermission") :
    loopModel env history (fuel + 1) sendIdx resp learned =
      (RunOut.ok { text := fc.reason, requiresConsent := true,
                   action := some (fc.toolToCall, fc.toolArgs.getD []),
                   learnedFacts := learned }, [])
    ∧ (∀ env2 : Env,
        (getAiResponseAfterConsentModel env2 (fc.toolToCall, fc.toolArgs.getD [])).2 =
          [Effect.toolExec fc.toolToCall (fc.toolArgs.getD []), Effect.send])
    ∧ (∀ (env2 : Env) (r2 : ModelResponse), env2.chat 0 = Except.ok r2 →
        getAiResponseAfterConsentModel env2 (fc.toolToCall, fc.toolArgs.getD []) =
          (RunOut.ok { text := r2.text },
            [Effect.toolExec fc.toolToCall (fc.toolArgs.getD []), Effect.send])) := by
  refine ⟨?_, ?_, ?_⟩
  · unfold loopModel
    simp [hfc, hname]
  · intro env2
    unfold getAiResponseAfterConsentModel
    cases env2.chat 0 <;> simp
  · intro env2 r2 hchat
    unfold getAiResponseAfterConsentModel
    simp [hchat]

def fcConsent : FunctionCall :=
  { name := "requestPermission", reason := "Need your email access",
    toolToCall := "getEmails", toolArgs := some [("accountIds", "personal@example.com")] }

def respConsent : ModelResponse := { text := "", functionCalls := [fcConsent] }

def envConsent : Env := { chat := fun _ => .ok respConsent }

theorem claim_C5_consent_round_trip_witness :
    loopModel envConsent [] 1 0 respConsent [] =
      (RunOut.ok { text := "Need your email access", requiresConsent := true,
                   action := some ("getEmails", [("accountIds", "personal@example.com")]),
                   learnedFacts := [] }, [])
    ∧ getAiResponseAfterConsentModel envPlain
        ("getEmails", [("accountIds", "personal@example.com")]) =
      (RunOut.ok { text := "hi" },
        [Effect.toolExec "getEmails" [("accountIds", "personal@example.com")], Effect.send]) := by
  have h := claim_C5_consent_round_trip envConsent [] 0 0 respConsent [] fcConsent [] rfl rfl
  exact ⟨h.1, h.2.2 envPlain { text := "hi" } rfl⟩

/-- Claim C8 (amended): a grounding tool call makes the orchestrator issue
one separate grounding request outside the tool-call loop and return a
`Final` response whose `groundingSources` carry no entry with an empty URI;
the sources are not deduplicated. -/
theorem claim_C8_grounding_sources (env : Env) (history : List ChatMessage)
    (fuel sendIdx : Nat) (resp : ModelResponse) (learned : List String)
    (fc : FunctionCall) (rest : List FunctionCall) (g : GroundingResult)
    (hfc : resp.functionCalls = fc :: rest)
    (hname : fc.name = "useGoogleSearch" ∨ fc.name = "useGoogleMaps")
    (hg : env.grounding = Except.ok g) :
    loopModel env history (fuel + 1) sendIdx resp learned =
      (RunOut.ok { text := g.text, groundingSources := some (groundingSourcesOf g),
                   learnedFacts := learned }, [Effect.groundingCall])
    ∧ ∀ s ∈ groundingSourcesOf g, s.uri ≠ "" := by
  constructor
  · unfold loopModel
    rcases hname with h | h <;> simp [hfc, h, groundingBranch, hg]
  · intro s hs
    have h2 := (List.mem_filter.mp hs).2
    intro he
    rw [he] at h2
    exact absurd h2 (by decide)

def srcChunkDup : GroundingChunk :=
  { web := some { uri := some "https://example.com", title := some "Example" } }

def gDup : GroundingResult := { text := "grounded", groundingChunks := [srcChunkDup, srcChunkDup] }

def fcSearch : FunctionCall := { name := "useGoogleSearch" }

def respSearch : ModelResponse := { text := "", functionCalls := [fcSearch] }

def envDup : Env := { chat := fun _ => .ok respSearch, grounding := .ok gDup }

/-- The duplicated-source response the orchestrator returns on `envDup`. -/
def dupResponse : AiResponse :=
  { text := "grounded",
    groundingSources :=
      some [⟨"https://example.com", "Example"⟩, ⟨"https://example.com", "Example"⟩] }

/-- Counterexample to claim C8 as stated: when the grounding metadata
carries the same chunk twice, the returned `groundingSources` list contains
a duplicate source — the code filters empty URIs but never deduplicates. -/
theorem claim_C8_counterexample :
    (loopModel envDup [] 1 0 respSearch []).1 = RunOut.ok dupResponse
    ∧ ¬ (groundingSourcesOf gDup).Nodup := by
  constructor
  · decide
  · decide

def gSingle : GroundingResult := { text := "g", groundingChunks := [srcChunkDup] }

def envSingle : Env := { chat := fun _ => .ok respSearch, grounding := .ok gSingle }

theorem claim_C8_grounding_sources_witness :
    loopModel envSingle [] 1 0 respSearch [] =
      (RunOut.ok { text := "g", groundingSources := some (groundingSourcesOf gSingle),
                   learnedFacts := [] }, [Effect.groundingCall])
    ∧ ∀ s ∈ groundingSourcesOf gSingle, s.uri ≠ "" :=
  claim_C8_grounding_sources envSingle [] 0 0 respSearch [] fcSearch [] gSingle rfl
    (Or.inl rfl) rfl

/-- Claim C10: when no user message in the history carries an image and the
model issues the `editImage` tool call, the orchestrator returns the
plain-text apology asking for an upload, performs no effect (in particular
no image-editing model call), and sets no other terminal shape. -/
theorem claim_C10_edit_without_image (env : Env) (history : List ChatMessage)
    (fuel sendIdx : Nat) (resp : ModelResponse) (learned : List String)
    (fc : FunctionCall) (rest : List FunctionCall)
    (hfc : resp.functionCalls = fc :: rest) (hname : fc.name = "editImage")
    (hnoimg : ∀ m ∈ history, hasUserImage m = false) :
    loopModel env history (fuel + 1) sendIdx resp learned =
      (RunOut.ok { text := editApologyText, learnedFacts := learned }, []) := by
  have hfind : history.reverse.find? hasUserImage = none := by
    rw [List.find?_eq_none]
    intro m hm
    simp [hnoimg m (List.mem_reverse.mp hm)]
  unfold loopModel
  simp [hfc, hname, editBranch, hfind]

def fcEdit : FunctionCall := { name := "editImage", prompt := "make it blue" }

def respEdit : ModelResponse := { text := "", functionCalls := [fcEdit] }

theorem claim_C10_edit_without_image_witness :
    loopModel envPlain [exUser "hello"] 1 0 respEdit [] =
      (RunOut.ok { text := editApologyText }, []) :=
  claim_C10_edit_without_image envPlain [exUser "hello"] 0 0 respEdit [] fcEdit [] rfl rfl
    (by decide)

end Jarvis
